import Mathlib

/-!
Shallow embedding of the memory subsystem of the Fin_agent repository:
`memory/memory_manager.py` (class `MemoryManager`) and
`memory/user_profile_store.py` (class `UserProfileStore`).

External collaborators (the Pinecone vector index, the embedding model, the
chat summarizer LLM) are modelled as oracles in an `Env` record; failure
injection flags model the exceptions their calls can raise, which the Python
code catches at the call sites.  The vector index state is modelled
explicitly: the `memory_store` namespace holds memory vectors, the
`user_profiles` namespace holds profile records.  Machine floats (embedding
values, match scores) are modelled as rationals, which is faithful for every
property considered here (only comparisons against thresholds matter).
-/

namespace FinAgent

/-- Modelled from the spec: `UserProfileSchema` lives in `agent/schemas.py`,
which is not part of the sources; the spec's data model gives the fields
user_id, risk_tolerance, explanation_depth, style_preference.  Field values
are modelled as strings; `model_dump()` equality is structure equality. -/
structure UserProfileSchema where
  user_id : String
  risk_tolerance : String
  explanation_depth : String
  style_preference : String
deriving DecidableEq, Repr

/-- Modelled from the spec: the default field values a fresh
`UserProfileSchema(user_id=uid)` carries (risk=medium, depth=detailed,
style=formal, per the spec's end-to-end property and the UI defaults). -/
def defaultProfile (uid : String) : UserProfileSchema :=
  { user_id := uid
    risk_tolerance := "medium"
    explanation_depth := "detailed"
    style_preference := "formal" }

/-- Modelled from the spec: `MemoryType` from `agent/schemas.py`;
the spec's data model has memory_type ∈ \x7bFACT, EPISODIC\x7d. -/
inductive MemoryType where
  | fact
  | episodic
deriving DecidableEq, Repr

/-- The `.value` string of a `MemoryType`, as stored in vector metadata. -/
def MemoryType.value : MemoryType → String
  | .fact => "fact"
  | .episodic => "episodic"

/-- Parsing a stored type string back into a `MemoryType`; `none` models the
`ValueError` the Python enum constructor raises on an unknown value. -/
def MemoryType.ofValue : String → Option MemoryType
  | "fact" => some .fact
  | "episodic" => some .episodic
  | _ => none

/-- Free-form metadata dictionary with string keys and string values
(the only values the code ever stores are strings such as user ids). -/
abbrev Metadata := List (String × String)

/-- Pinecone metadata written by `add_memory`: text, type, timestamp,
attributes_json (the original metadata dict, JSON round-trip modelled as
identity) and the optional lifted top-level user_id. -/
structure PineconeMeta where
  text : String
  type : String
  timestamp : String
  attributesJson : Metadata
  userId : Option String
deriving DecidableEq, Repr

/-- A vector stored in the `memory_store` namespace. -/
structure VecEntry where
  id : String
  values : List Rat
  meta : PineconeMeta
deriving DecidableEq, Repr

/-- State of the vector index: the `memory_store` namespace and the
`user_profiles` namespace.  A profile record maps a user id to the parse
result of its `profile_data` metadata: `some p` for a record whose JSON
parses into a valid schema, `none` for a present but missing/unparseable
`profile_data` (so `get_profile` falls back to defaults).
`updateProfileCalls` is a ghost counter of `update_profile` invocations,
used to observe whether a persistence write was attempted; `uuidCounter`
counts the uuid4 draws so each upserted memory gets a fresh id. -/
structure IndexState where
  memoryStore : List VecEntry
  userProfiles : List (String × Option UserProfileSchema)
  updateProfileCalls : Nat
  uuidCounter : Nat
deriving DecidableEq, Repr

/-- Partial profile-field updates returned by the summarizer's
`analyze_interaction_delta` (the LLM returns a dict of changed fields). -/
structure ProfileUpdates where
  risk_tolerance : Option String
  explanation_depth : Option String
  style_preference : Option String
deriving DecidableEq, Repr

/-- Merge semantics of `updated_data.update(updates)` followed by
`UserProfileSchema(**updated_data)`: merge present fields over the current
profile. -/
def applyUpdates (p : UserProfileSchema) (u : ProfileUpdates) : UserProfileSchema :=
  { user_id := p.user_id
    risk_tolerance := u.risk_tolerance.getD p.risk_tolerance
    explanation_depth := u.explanation_depth.getD p.explanation_depth
    style_preference := u.style_preference.getD p.style_preference }

/-- The environment: external collaborators and injected failures.
`hasIndex` models the `if not index` checks (Pinecone import may fail);
`embed` is `get_embedding` (`none` covers both a falsy result and a raised
exception, which every caller converts to the same abort);
`score` is the similarity the index assigns a stored vector against a query
vector; `genId` produces the uuid for the n-th upserted memory;
`now` is the timestamp string.  The `...Raises` flags inject exceptions at
the corresponding external call sites. -/
structure Env where
  hasIndex : Bool
  embed : String → Option (List Rat)
  score : List Rat → List Rat → Rat
  genId : Nat → String
  now : String
  fetchProfileRaises : Bool
  deleteProfileRaises : Bool
  indexDeleteRaises : Bool
  deltaRaises : Bool
  analyzeDelta : UserProfileSchema → String → String → Option ProfileUpdates
  summarize : List String → Option (List String)
  dedupFacts : List String → List String → List String

/-! ## UserProfileStore (`memory/user_profile_store.py`) -/

/-- Model of `UserProfileStore.get_profile`: fetch the record by id from the
`user_profiles` namespace; on local mode, fetch exception, missing record
or unparseable `profile_data`, return `UserProfileSchema(user_id=uid)`. -/
def get_profile (env : Env) (s : IndexState) (uid : String) : UserProfileSchema :=
  if !env.hasIndex then defaultProfile uid
  else if env.fetchProfileRaises then defaultProfile uid
  else match List.lookup uid s.userProfiles with
    | some (some p) => p
    | some none => defaultProfile uid
    | none => defaultProfile uid

/-- Upsert into the `user_profiles` namespace: replace the record with the
same id if present, otherwise append. -/
def upsertProfileRecord (l : List (String × Option UserProfileSchema))
    (uid : String) (v : Option UserProfileSchema) :
    List (String × Option UserProfileSchema) :=
  if (List.lookup uid l).isSome then
    l.map (fun kv => cond (kv.1 == uid) (uid, v) kv)
  else l ++ [(uid, v)]

/-- Model of `UserProfileStore.update_profile`: serialize the profile and upsert it
(with a placeholder vector) keyed by its user_id into the `user_profiles`
namespace.  Exceptions are caught and logged; local mode is a no-op.  The
ghost counter records that the call was made. -/
def update_profile (env : Env) (s : IndexState) (p : UserProfileSchema) : IndexState :=
  if !env.hasIndex then { s with updateProfileCalls := s.updateProfileCalls + 1 }
  else
    { s with
      updateProfileCalls := s.updateProfileCalls + 1
      userProfiles := upsertProfileRecord s.userProfiles p.user_id (some p) }

/-- Model of `UserProfileStore.sync_if_changed`: write via `update_profile` only if
`old.model_dump() != current.model_dump()`; return whether a write call
was made. -/
def sync_if_changed (env : Env) (s : IndexState)
    (old_profile current_profile : UserProfileSchema) : Bool × IndexState :=
  if old_profile ≠ current_profile then
    (true, update_profile env s current_profile)
  else (false, s)

/-- Model of `UserProfileStore.delete_profile`: point delete by id from the
`user_profiles` namespace; exceptions are caught and logged (swallowed),
local mode is a no-op, nothing is returned. -/
def delete_profile (env : Env) (s : IndexState) (uid : String) : IndexState :=
  if !env.hasIndex then s
  else if env.deleteProfileRaises then s
  else { s with userProfiles := s.userProfiles.filter (fun kv => !(kv.1 == uid)) }

/-! ## MemoryManager (`memory/memory_manager.py`) -/

/-- One short-term buffer turn: a role ("user" or "agent") and content. -/
structure Msg where
  role : String
  content : String
deriving DecidableEq, Repr

/-- Full `MemoryManager` state: the per-user short-term buffer
`_active_context` (a dict modelled as an association list) plus the vector
index, and a ghost counter of `clear_cache` calls (the semantic cache itself
is external and stateless here). -/
structure MMState where
  activeContext : List (String × List Msg)
  index : IndexState
  cacheClearCalls : Nat
deriving DecidableEq, Repr

/-- Model of `MemoryItem` (from `agent/schemas.py`, reconstructed by
`retrieve_relevant` from stored metadata). -/
structure MemoryItem where
  id : String
  content : String
  memory_type : MemoryType
  timestamp : String
  metadata : Metadata
deriving DecidableEq, Repr

/-- Upsert into the `memory_store` namespace: replace an
entry with the same id if present, otherwise append. -/
def upsertVec (l : List VecEntry) (e : VecEntry) : List VecEntry :=
  if l.any (fun x => x.id == e.id) then
    l.map (fun x => cond (x.id == e.id) e x)
  else l ++ [e]

/-- Model of `MemoryManager.add_memory`: returns `none` without touching the index
when the index is unavailable, the content is empty, the strict isolation
check fails (type FACT or EPISODIC without a user_id in metadata), or the
embedding is unavailable; otherwise upserts vector + metadata and returns
the fresh id (uuid4 modelled as `env.genId` of the draw counter). -/
def add_memory (env : Env) (s : IndexState) (content : String)
    (memory_type : MemoryType) (metadata : Metadata) :
    Option String × IndexState :=
  if !env.hasIndex || content == "" then (none, s)
  else
    let safe_meta := metadata
    if (memory_type == .fact || memory_type == .episodic) &&
        (List.lookup "user_id" safe_meta).isNone then (none, s)
    else match env.embed content with
      | none => (none, s)
      | some vec =>
        let memId := env.genId s.uuidCounter
        let pineconeMeta : PineconeMeta :=
          { text := content
            type := memory_type.value
            timestamp := env.now
            attributesJson := safe_meta
            userId := List.lookup "user_id" safe_meta }
        (some memId,
          { s with
            memoryStore := upsertVec s.memoryStore ⟨memId, vec, pineconeMeta⟩
            uuidCounter := s.uuidCounter + 1 })

/-- A match returned by `index.query`. -/
structure QueryMatch where
  id : String
  score : Rat
  meta : PineconeMeta
deriving DecidableEq, Repr

/-- Whether a stored entry satisfies the metadata filter
`\x7b"user_id": uid\x7d` (plus `"type": t` when a type filter is given):
Pinecone equality semantics, entries lacking the field do not match. -/
def matchesFilter (uid : String) (tfilter : Option String) (e : VecEntry) : Bool :=
  (e.meta.userId == some uid) &&
    (match tfilter with
      | none => true
      | some t => e.meta.type == t)

/-- Insert a match into a list sorted by descending score. -/
def insertByScore (m : QueryMatch) : List QueryMatch → List QueryMatch
  | [] => [m]
  | x :: xs => if x.score ≤ m.score then m :: x :: xs else x :: insertByScore m xs

/-- Sort matches by descending score (insertion sort). -/
def sortByScore : List QueryMatch → List QueryMatch
  | [] => []
  | x :: xs => insertByScore x (sortByScore xs)

/-- Model of `index.query(vector, top_k, filter, namespace)` on the
`memory_store` namespace: score the entries that satisfy the metadata
filter and return the best `top_k` of them. -/
def indexQuery (env : Env) (entries : List VecEntry) (qv : List Rat)
    (topK : Nat) (uid : String) (tfilter : Option String) : List QueryMatch :=
  let scored := (entries.filter (matchesFilter uid tfilter)).map
    (fun e => QueryMatch.mk e.id (env.score qv e.values) e.meta)
  (sortByScore scored).take topK

/-- The result-building loop of `retrieve_relevant`: skip matches below the
score threshold, reconstruct a `MemoryItem` from each remaining match.
`none` models the exception the Python `MemoryType(...)` constructor raises
on an unknown stored type string, which aborts the whole loop (the outer
handler then returns the empty list). -/
def buildItems (thr : Rat) : List QueryMatch → Option (List MemoryItem)
  | [] => some []
  | m :: rest =>
    if m.score < thr then buildItems thr rest
    else match MemoryType.ofValue m.meta.type with
      | none => none
      | some mt =>
        (buildItems thr rest).map
          (fun items => MemoryItem.mk m.id m.meta.text mt m.meta.timestamp m.meta.attributesJson :: items)

/-- Model of `MemoryManager.retrieve_relevant`: embed the query, query the index with
the mandatory `user_id` filter (plus the optional type filter), drop matches
below `score_threshold`, rebuild `MemoryItem`s; any failure yields `[]`. -/
def retrieve_relevant (env : Env) (s : IndexState) (query : String)
    (user_id : String) (limit : Nat) (memory_type : Option MemoryType)
    (score_threshold : Rat) : List MemoryItem :=
  if !env.hasIndex || query == "" then []
  else match env.embed query with
    | none => []
    | some qv =>
      let tfilter := memory_type.map MemoryType.value
      (buildItems score_threshold (indexQuery env s.memoryStore qv limit user_id tfilter)).getD []

/-- Dict delete `del self._active_context[user_id]` (no-op when absent). -/
def dropContext (ctx : List (String × List Msg)) (uid : String) :
    List (String × List Msg) :=
  ctx.filter (fun kv => !(kv.1 == uid))

/-- Model of `MemoryManager.clear_chat_history`: drop the user's short-term buffer,
then delete the EPISODIC vectors scoped to that user from the
`memory_store` namespace; `false` on missing index or delete exception. -/
def clear_chat_history (env : Env) (s : MMState) (uid : String) : Bool × MMState :=
  let ctx := dropContext s.activeContext uid
  if !env.hasIndex then (false, { s with activeContext := ctx })
  else if env.indexDeleteRaises then (false, { s with activeContext := ctx })
  else
    (true,
      { s with
        activeContext := ctx
        index :=
          { s.index with
            memoryStore := s.index.memoryStore.filter
              (fun e => !(e.meta.userId == some uid && e.meta.type == "episodic")) } })

/-- Model of `MemoryManager.reset_memory`: drop the short-term buffer, delete all
vectors scoped to the user from the `memory_store` namespace (an exception
there sets `success = False`), call `delete_profile` (which swallows its own
errors), call `clear_cache` (exception logged), and return `success`. -/
def reset_memory (env : Env) (s : MMState) (uid : String) : Bool × MMState :=
  let ctx := dropContext s.activeContext uid
  let step :=
    if env.hasIndex then
      if env.indexDeleteRaises then (false, s.index)
      else
        (true,
          { s.index with
            memoryStore := s.index.memoryStore.filter (fun e => !(e.meta.userId == some uid)) })
    else (true, s.index)
  let idx := delete_profile env step.2 uid
  (step.1,
    { activeContext := ctx, index := idx, cacheClearCalls := s.cacheClearCalls + 1 })

/-- Dict assignment `self._active_context[user_id] = buf`: replace the entry
if present, otherwise append. -/
def setContext (ctx : List (String × List Msg)) (uid : String) (buf : List Msg) :
    List (String × List Msg) :=
  if (List.lookup uid ctx).isSome then
    ctx.map (fun kv => cond (kv.1 == uid) (uid, buf) kv)
  else ctx ++ [(uid, buf)]

/-- Python slice `buf[-20:]` applied when the buffer exceeds 20 entries. -/
def trimBuffer (buf : List Msg) : List Msg :=
  if buf.length > 20 then buf.drop (buf.length - 20) else buf

/-- Model of `MemoryManager.process_realtime_interaction`: (1) append the user and
agent turns to the short-term buffer and trim it to the last 20 entries;
then inside a single try block (2) detect profile deltas via the summarizer
and persist through `sync_if_changed`, and (3) archive the exchange as an
EPISODIC memory when the combined message length exceeds 50.  A raised
summarizer exception (`env.deltaRaises`) is caught by that shared handler,
leaving the state as of the end of step (1). -/
def process_realtime_interaction (env : Env) (s : MMState) (user_id user_msg agent_msg : String) :
    MMState :=
  if user_msg == "" || agent_msg == "" then s
  else
    let buf := (List.lookup user_id s.activeContext).getD []
    let buf := buf ++ [Msg.mk "user" user_msg, Msg.mk "agent" agent_msg]
    let buf := trimBuffer buf
    let s1 : MMState := { s with activeContext := setContext s.activeContext user_id buf }
    if env.deltaRaises then s1
    else
      let current_profile := get_profile env s1.index user_id
      let s2 : MMState :=
        match env.analyzeDelta current_profile user_msg agent_msg with
        | none => s1
        | some upd =>
          let new_profile := applyUpdates current_profile upd
          { s1 with index := (sync_if_changed env s1.index current_profile new_profile).2 }
      if user_msg.length + agent_msg.length > 50 then
        { s2 with
          index := (add_memory env s2.index
            ("User: " ++ user_msg ++ "\nAgent: " ++ agent_msg)
            .episodic [("user_id", user_id)]).2 }
      else s2

/-- Model of `MemoryManager.consolidate_session`: return unchanged on empty history;
summarize (a raised exception is caught, leaving the state unchanged);
return unchanged when no key facts were extracted; otherwise fetch all
existing FACT memories for the user (threshold 0), deduplicate, and — when
the index is available and its delete call does not raise — delete the
user's FACT vectors and re-insert the deduplicated set. -/
def consolidate_session (env : Env) (s : MMState) (user_id : String)
    (conversation_history : List String) : MMState :=
  if conversation_history.isEmpty then s
  else match env.summarize conversation_history with
    | none => s
    | some key_facts =>
      if key_facts.isEmpty then s
      else
        let existing := retrieve_relevant env s.index "general user facts" user_id 50 (some .fact) 0
        let existing_texts := existing.map (fun m => m.content)
        let final_facts := env.dedupFacts existing_texts key_facts
        if env.hasIndex then
          if env.indexDeleteRaises then s
          else
            let idx : IndexState :=
              { s.index with
                memoryStore := s.index.memoryStore.filter
                  (fun e => !(e.meta.userId == some user_id && e.meta.type == "fact")) }
            let idx := final_facts.foldl
              (fun acc fact => (add_memory env acc fact .fact [("user_id", user_id)]).2) idx
            { s with index := idx }
        else s

/-- The empty index state. -/
def emptyIndex : IndexState :=
  { memoryStore := [], userProfiles := [], updateProfileCalls := 0, uuidCounter := 0 }

/-- The initial `MemoryManager` state: empty short-term buffers, empty index. -/
def emptyMM : MMState :=
  { activeContext := [], index := emptyIndex, cacheClearCalls := 0 }

/-- A fully healthy concrete environment used to exercise the theorems. -/
def envOk : Env :=
  { hasIndex := true
    embed := fun _ => some [1]
    score := fun _ _ => 1
    genId := fun n => "id" ++ toString n
    now := "t0"
    fetchProfileRaises := false
    deleteProfileRaises := false
    indexDeleteRaises := false
    deltaRaises := false
    analyzeDelta := fun _ _ _ => none
    summarize := fun _ => some []
    dedupFacts := fun _ cand => cand }

/-! ## Helper lemmas -/

theorem lookup_filter_ne {β : Type} (l : List (String × β)) (uid : String) :
    List.lookup uid (l.filter (fun kv => !(kv.1 == uid))) = none := by
  induction l with
  | nil => rfl
  | cons kv rest ih =>
    rcases kv with ⟨k, v⟩
    rw [List.filter_cons]
    cases hk : (k == uid) with
    | true => simpa [hk] using ih
    | false =>
      have hne : (uid == k) = false :=
        beq_false_of_ne (fun e => ne_of_beq_false hk e.symm)
      simp only [hk, Bool.not_false, if_true]
      rw [List.lookup_cons, hne]
      exact ih

theorem lookup_map_update (ctx : List (String × List Msg)) (uid : String) (buf : List Msg)
    (h : (List.lookup uid ctx).isSome = true) :
    List.lookup uid (ctx.map (fun kv => cond (kv.1 == uid) (uid, buf) kv)) = some buf := by
  induction ctx with
  | nil => simp at h
  | cons kv rest ih =>
    rcases kv with ⟨k, v⟩
    cases hk : (k == uid) with
    | true =>
      simp only [List.map_cons, hk, cond_true]
      rw [List.lookup_cons, beq_self_eq_true]
    | false =>
      have hne : (uid == k) = false :=
        beq_false_of_ne (fun e => ne_of_beq_false hk e.symm)
      rw [List.lookup_cons, hne] at h
      simp only [List.map_cons, hk, cond_false]
      rw [List.lookup_cons, hne]
      exact ih h

theorem lookup_append_single (ctx : List (String × List Msg)) (uid : String) (buf : List Msg)
    (h : List.lookup uid ctx = none) :
    List.lookup uid (ctx ++ [(uid, buf)]) = some buf := by
  induction ctx with
  | nil => rw [List.nil_append, List.lookup_cons, beq_self_eq_true]
  | cons kv rest ih =>
    rcases kv with ⟨k, v⟩
    rw [List.lookup_cons] at h
    rw [List.cons_append, List.lookup_cons]
    cases hbe : (uid == k) with
    | true => rw [hbe] at h; simp at h
    | false => rw [hbe] at h; exact ih h

theorem lookup_setContext_self (ctx : List (String × List Msg)) (uid : String) (buf : List Msg) :
    List.lookup uid (setContext ctx uid buf) = some buf := by
  unfold setContext
  split
  · rename_i h
    exact lookup_map_update ctx uid buf h
  · rename_i h
    have h0 : List.lookup uid ctx = none := by
      cases hl : List.lookup uid ctx with
      | none => rfl
      | some b => rw [hl] at h; simp at h
    exact lookup_append_single ctx uid buf h0

theorem lookup_map_update_ne (ctx : List (String × List Msg)) (uid u : String) (buf : List Msg)
    (h : u ≠ uid) :
    List.lookup u (ctx.map (fun kv => cond (kv.1 == uid) (uid, buf) kv)) =
      List.lookup u ctx := by
  induction ctx with
  | nil => rfl
  | cons kv rest ih =>
    rcases kv with ⟨k, v⟩
    have hu : (u == uid) = false := beq_false_of_ne h
    cases hk : (k == uid) with
    | true =>
      have hk2 : k = uid := eq_of_beq hk
      subst hk2
      simp only [List.map_cons, hk, cond_true]
      rw [List.lookup_cons, List.lookup_cons, hu]
      exact ih
    | false =>
      simp only [List.map_cons, hk, cond_false]
      rw [List.lookup_cons, List.lookup_cons]
      cases hbe : (u == k) with
      | true => rfl
      | false => exact ih

theorem lookup_append_single_ne (ctx : List (String × List Msg)) (uid u : String) (buf : List Msg)
    (h : u ≠ uid) :
    List.lookup u (ctx ++ [(uid, buf)]) = List.lookup u ctx := by
  induction ctx with
  | nil =>
    have hne : (u == uid) = false := beq_false_of_ne h
    rw [List.nil_append, List.lookup_cons, hne, List.lookup_nil]
  | cons kv rest ih =>
    rcases kv with ⟨k, v⟩
    rw [List.cons_append, List.lookup_cons, List.lookup_cons]
    cases hbe : (u == k) with
    | true => rfl
    | false => exact ih

theorem lookup_setContext_ne (ctx : List (String × List Msg)) (uid u : String) (buf : List Msg)
    (h : u ≠ uid) :
    List.lookup u (setContext ctx uid buf) = List.lookup u ctx := by
  unfold setContext
  split
  · exact lookup_map_update_ne ctx uid u buf h
  · exact lookup_append_single_ne ctx uid u buf h

theorem trimBuffer_length (buf : List Msg) :
    (trimBuffer buf).length = min buf.length 20 := by
  unfold trimBuffer
  split
  · rename_i h
    rw [List.length_drop]
    omega
  · rename_i h
    omega

theorem process_activeContext (env : Env) (s : MMState) (u um am : String) :
    (process_realtime_interaction env s u um am).activeContext =
      if (um == "" || am == "") then s.activeContext
      else setContext s.activeContext u
        (trimBuffer (((List.lookup u s.activeContext).getD []) ++
          [Msg.mk "user" um, Msg.mk "agent" am])) := by
  unfold process_realtime_interaction
  split
  · rfl
  · dsimp only
    split
    · rfl
    · split
      · split <;> rfl
      · split <;> rfl

/-- Number of entries in the short-term buffer held for `uid`. -/
def bufLen (s : MMState) (uid : String) : Nat :=
  ((List.lookup uid s.activeContext).getD []).length

theorem bufLen_process_le (env : Env) (s : MMState) (uid u um am : String)
    (h : bufLen s uid ≤ 20) :
    bufLen (process_realtime_interaction env s u um am) uid ≤ 20 := by
  unfold bufLen
  rw [process_activeContext]
  split
  · exact h
  · by_cases hu : uid = u
    · subst hu
      rw [lookup_setContext_self]
      simp only [Option.getD_some]
      rw [trimBuffer_length]
      omega
    · rw [lookup_setContext_ne _ _ _ _ hu]
      exact h

/-- One `process_realtime_interaction` call with its own environment,
user id, user message and agent message. -/
def stepCall (s : MMState) (c : Env × String × String × String) : MMState :=
  process_realtime_interaction c.1 s c.2.1 c.2.2.1 c.2.2.2

/-- C5: for every user id and every sequence of
`process_realtime_interaction` calls starting from the initial state, the
short-term buffer held for that user never contains more than 20 entries
after any call completes (every prefix of a call sequence is itself a call
sequence, so this covers every intermediate state as well). -/
theorem short_term_buffer_capped (calls : List (Env × String × String × String))
    (uid : String) :
    bufLen (calls.foldl stepCall emptyMM) uid ≤ 20 := by
  have key : ∀ (cs : List (Env × String × String × String)) (s : MMState),
      (∀ u, bufLen s u ≤ 20) → ∀ u, bufLen (cs.foldl stepCall s) u ≤ 20 := by
    intro cs
    induction cs with
    | nil =>
      intro s hs u
      exact hs u
    | cons c rest ih =>
      intro s hs u
      rw [List.foldl_cons]
      exact ih (stepCall s c)
        (fun v => bufLen_process_le c.1 s v c.2.1 c.2.2.1 c.2.2.2 (hs v)) u
  refine key calls emptyMM (fun u => ?_) uid
  simp [bufLen, emptyMM]

/-- C1: `add_memory` called with memory type FACT or EPISODIC and a
metadata dictionary lacking the key user_id returns none and leaves the
index state unchanged — in particular no vector is upserted. -/
theorem add_memory_rejects_missing_user_id (env : Env) (s : IndexState)
    (content : String) (memory_type : MemoryType) (metadata : Metadata)
    (hmt : memory_type = .fact ∨ memory_type = .episodic)
    (hmeta : List.lookup "user_id" metadata = none) :
    add_memory env s content memory_type metadata = (none, s) := by
  unfold add_memory
  rcases hmt with h | h <;> subst h <;> simp [hmeta]

/-- C1 witness: a concrete FACT insert without user_id is rejected and the
index is untouched. -/
theorem add_memory_rejects_missing_user_id_witness :
    add_memory envOk emptyIndex "user likes tea" .fact [] = (none, emptyIndex) :=
  add_memory_rejects_missing_user_id envOk emptyIndex "user likes tea" .fact []
    (Or.inl rfl) rfl

theorem profile_ne_iff (p q : UserProfileSchema) :
    p ≠ q ↔ (p.user_id ≠ q.user_id ∨ p.risk_tolerance ≠ q.risk_tolerance ∨
      p.explanation_depth ≠ q.explanation_depth ∨
      p.style_preference ≠ q.style_preference) := by
  cases p
  cases q
  rw [ne_eq, UserProfileSchema.mk.injEq]
  tauto

theorem update_profile_calls (env : Env) (s : IndexState) (p : UserProfileSchema) :
    (update_profile env s p).updateProfileCalls = s.updateProfileCalls + 1 := by
  unfold update_profile
  split <;> rfl

/-- C4: `sync_if_changed` performs an `update_profile` call if and only if
some field of the old profile differs from the new one (model_dump equality
is field-by-field equality), its boolean return value equals whether that
write call occurred, identical profiles trigger no write, and a differing
pair triggers exactly one write (the ghost call counter grows by exactly
one). -/
theorem sync_if_changed_spec (env : Env) (s : IndexState)
    (old_profile current_profile : UserProfileSchema) :
    ((sync_if_changed env s old_profile current_profile).1 = true ↔
      (old_profile.user_id ≠ current_profile.user_id ∨
        old_profile.risk_tolerance ≠ current_profile.risk_tolerance ∨
        old_profile.explanation_depth ≠ current_profile.explanation_depth ∨
        old_profile.style_preference ≠ current_profile.style_preference)) ∧
    ((sync_if_changed env s old_profile current_profile).2.updateProfileCalls =
      if old_profile = current_profile then s.updateProfileCalls
      else s.updateProfileCalls + 1) := by
  by_cases h : old_profile = current_profile
  · subst h
    have hs : sync_if_changed env s old_profile old_profile = (false, s) := by
      unfold sync_if_changed
      rw [if_neg (fun hh => hh rfl)]
    rw [hs]
    refine ⟨by simp, by rw [if_pos rfl]⟩
  · have hs : sync_if_changed env s old_profile current_profile =
        (true, update_profile env s current_profile) := by
      unfold sync_if_changed
      rw [if_pos h]
    rw [hs]
    refine ⟨⟨fun _ => (profile_ne_iff _ _).mp h, fun _ => rfl⟩, ?_⟩
    rw [update_profile_calls, if_neg h]

/-- C4 witness: identical profiles cause no write; changing one field
(risk tolerance) causes exactly one write call and a true return. -/
theorem sync_if_changed_spec_witness :
    (sync_if_changed envOk emptyIndex (defaultProfile "u1") (defaultProfile "u1")).1 = false ∧
    (sync_if_changed envOk emptyIndex (defaultProfile "u1")
      (UserProfileSchema.mk "u1" "high" "detailed" "formal")).1 = true ∧
    (sync_if_changed envOk emptyIndex (defaultProfile "u1")
      (UserProfileSchema.mk "u1" "high" "detailed" "formal")).2.updateProfileCalls = 1 := by
  refine ⟨rfl, ?_, ?_⟩
  · exact (sync_if_changed_spec envOk emptyIndex (defaultProfile "u1")
      (UserProfileSchema.mk "u1" "high" "detailed" "formal")).1.mpr
      (Or.inr (Or.inl (by decide)))
  · rw [(sync_if_changed_spec envOk emptyIndex (defaultProfile "u1")
      (UserProfileSchema.mk "u1" "high" "detailed" "formal")).2,
      if_neg (by decide)]
    rfl

/-- C10: `consolidate_session` leaves the entire state unchanged — no FACT
vector deleted and none inserted — whenever the history is empty, the
summarizer raises, or the summarizer extracts no key facts. -/
theorem consolidate_session_noop (env : Env) (s : MMState) (user_id : String)
    (history : List String)
    (h : history = [] ∨ env.summarize history = none ∨
      env.summarize history = some []) :
    consolidate_session env s user_id history = s := by
  unfold consolidate_session
  by_cases he : history.isEmpty = true
  · rw [if_pos he]
  · rcases h with h | h | h
    · exact absurd (by rw [h]; rfl) he
    · rw [if_neg he, h]
    · rw [if_neg he, h]
      rfl

/-- C10 witness: consolidating an empty history changes nothing. -/
theorem consolidate_session_noop_witness :
    consolidate_session envOk emptyMM "u1" [] = emptyMM :=
  consolidate_session_noop envOk emptyMM "u1" [] (Or.inl rfl)

/-- C6: `get_profile` is a total function (no exception reaches the
caller) and returns the profile with all default field values for the
requested user whenever the index is unavailable, the fetch raises, the
record is absent, or its profile_data does not parse; moreover
`reset_memory` followed by `get_profile` yields that default-valued
profile whenever the profile deletion step does not raise. -/
theorem get_profile_defaults (env : Env) (s : IndexState) (sm : MMState) (uid : String) :
    (env.hasIndex = false ∨ env.fetchProfileRaises = true ∨
        List.lookup uid s.userProfiles = none ∨
        List.lookup uid s.userProfiles = some none →
      get_profile env s uid = defaultProfile uid) ∧
    (env.deleteProfileRaises = false →
      get_profile env (reset_memory env sm uid).2.index uid = defaultProfile uid) := by
  constructor
  · intro h
    unfold get_profile
    rcases h with h | h | h | h <;> simp [h]
  · intro hdp
    cases hidx : env.hasIndex with
    | false => simp [get_profile, hidx]
    | true =>
      cases hfr : env.fetchProfileRaises with
      | true => simp [get_profile, hidx, hfr]
      | false =>
        cases hdel : env.indexDeleteRaises with
        | true =>
          simp [reset_memory, delete_profile, get_profile, hidx, hfr, hdp, hdel,
            lookup_filter_ne]
        | false =>
          simp [reset_memory, delete_profile, get_profile, hidx, hfr, hdp, hdel,
            lookup_filter_ne]

/-- C6 witness: on the empty index the default profile is returned, and it
is still returned right after a full reset. -/
theorem get_profile_defaults_witness :
    get_profile envOk emptyIndex "u1" = defaultProfile "u1" ∧
    get_profile envOk (reset_memory envOk emptyMM "u1").2.index "u1" = defaultProfile "u1" :=
  ⟨(get_profile_defaults envOk emptyIndex emptyMM "u1").1 (Or.inr (Or.inr (Or.inl rfl))),
   (get_profile_defaults envOk emptyIndex emptyMM "u1").2 rfl⟩

/-- Environment where everything succeeds except the profile deletion,
which raises (the exception is caught inside `delete_profile`). -/
def envC3 : Env := { envOk with deleteProfileRaises := true }

/-- A state holding one stored profile and nothing else. -/
def sC3 : MMState :=
  { activeContext := []
    index :=
      { memoryStore := []
        userProfiles := [("u1", some (defaultProfile "u1"))]
        updateProfileCalls := 0
        uuidCounter := 0 }
    cacheClearCalls := 0 }

/-- C3 counterexample: with the index available, the vector deletion
succeeding and the profile deletion raising, `reset_memory` still returns
true although the profile-deletion step failed (the profile record
survives) — refuting "returns false whenever any persisted-deletion step
(vector deletion or profile deletion) failed". -/
theorem reset_memory_counterexample :
    envC3.deleteProfileRaises = true ∧
    (reset_memory envC3 sC3 "u1").1 = true ∧
    List.lookup "u1" (reset_memory envC3 sC3 "u1").2.index.userProfiles =
      some (some (defaultProfile "u1")) :=
  ⟨rfl, rfl, rfl⟩

/-- C3 amended: `reset_memory` drops the short-term buffer, deletes all
user-scoped vectors when the vector-deletion call succeeds, invokes the
profile deletion (removing the record when it succeeds), and returns false
exactly when the memory-store vector deletion step failed; a
profile-deletion failure is swallowed inside `delete_profile` and never
affects the return value (the profile records are then left untouched). -/
theorem reset_memory_spec (env : Env) (s : MMState) (uid : String) :
    ((reset_memory env s uid).1 = (!env.hasIndex || !env.indexDeleteRaises)) ∧
    List.lookup uid (reset_memory env s uid).2.activeContext = none ∧
    (env.hasIndex = true → env.indexDeleteRaises = false →
      ∀ e, e ∈ (reset_memory env s uid).2.index.memoryStore →
        ¬(e.meta.userId = some uid)) ∧
    (env.hasIndex = true → env.deleteProfileRaises = false →
      List.lookup uid (reset_memory env s uid).2.index.userProfiles = none) ∧
    (env.deleteProfileRaises = true →
      (reset_memory env s uid).2.index.userProfiles = s.index.userProfiles) := by
  refine ⟨?_, ?_, ?_, ?_, ?_⟩
  · cases hidx : env.hasIndex <;> cases hdel : env.indexDeleteRaises <;>
      cases hdp : env.deleteProfileRaises <;>
      simp [reset_memory, delete_profile, hidx, hdel, hdp]
  · exact lookup_filter_ne s.activeContext uid
  · intro hidx hdel e he
    have hms : (reset_memory env s uid).2.index.memoryStore =
        s.index.memoryStore.filter (fun e => !(e.meta.userId == some uid)) := by
      cases hdp : env.deleteProfileRaises <;>
        simp [reset_memory, delete_profile, hidx, hdel, hdp]
    rw [hms, List.mem_filter] at he
    have h2 := he.2
    simp at h2
    exact h2
  · intro hidx hdp
    have hup : (reset_memory env s uid).2.index.userProfiles =
        s.index.userProfiles.filter (fun kv => !(kv.1 == uid)) := by
      cases hdel : env.indexDeleteRaises <;>
        simp [reset_memory, delete_profile, hidx, hdp, hdel]
    rw [hup]
    exact lookup_filter_ne _ _
  · intro hdp
    cases hidx : env.hasIndex <;> cases hdel : env.indexDeleteRaises <;>
      simp [reset_memory, delete_profile, hidx, hdel, hdp]

/-- C3 amended witness: a healthy reset returns true, and the profile
record is gone afterwards. -/
theorem reset_memory_spec_witness :
    (reset_memory envOk sC3 "u1").1 = (!envOk.hasIndex || !envOk.indexDeleteRaises) ∧
    List.lookup "u1" (reset_memory envOk sC3 "u1").2.index.userProfiles = none :=
  ⟨(reset_memory_spec envOk sC3 "u1").1,
   (reset_memory_spec envOk sC3 "u1").2.2.2.1 rfl rfl⟩

/-- C7: `clear_chat_history` removes the user's short-term buffer, leaves
the profile namespace untouched, never removes a vector that is not both
EPISODIC-typed and scoped to that user (in particular every FACT vector
survives), and when the scoped delete call succeeds it removes exactly the
user's EPISODIC vectors. -/
theorem clear_chat_history_spec (env : Env) (s : MMState) (uid : String) :
    List.lookup uid (clear_chat_history env s uid).2.activeContext = none ∧
    (clear_chat_history env s uid).2.index.userProfiles = s.index.userProfiles ∧
    (∀ e, e ∈ (clear_chat_history env s uid).2.index.memoryStore →
      e ∈ s.index.memoryStore) ∧
    (∀ e, e ∈ s.index.memoryStore →
      ¬(e.meta.userId = some uid ∧ e.meta.type = "episodic") →
      e ∈ (clear_chat_history env s uid).2.index.memoryStore) ∧
    (env.hasIndex = true → env.indexDeleteRaises = false →
      ∀ e, e ∈ (clear_chat_history env s uid).2.index.memoryStore →
      ¬(e.meta.userId = some uid ∧ e.meta.type = "episodic")) := by
  have hctx : List.lookup uid (clear_chat_history env s uid).2.activeContext = none := by
    cases hidx : env.hasIndex <;> cases hdel : env.indexDeleteRaises <;>
      simp [clear_chat_history, dropContext, hidx, hdel, lookup_filter_ne]
  cases hidx : env.hasIndex with
  | false =>
    have hinv : (clear_chat_history env s uid).2.index = s.index := by
      simp [clear_chat_history, hidx]
    rw [hinv]
    refine ⟨hctx, rfl, fun e he => he, fun e he _ => he, ?_⟩
    intro hx
    exact Bool.noConfusion hx
  | true =>
    cases hdel : env.indexDeleteRaises with
    | true =>
      have hinv : (clear_chat_history env s uid).2.index = s.index := by
        simp [clear_chat_history, hidx, hdel]
      rw [hinv]
      refine ⟨hctx, rfl, fun e he => he, fun e he _ => he, ?_⟩
      intro _ hx
      exact Bool.noConfusion hx
    | false =>
      have hms : (clear_chat_history env s uid).2.index.memoryStore =
          s.index.memoryStore.filter
            (fun e => !(e.meta.userId == some uid && e.meta.type == "episodic")) := by
        simp [clear_chat_history, hidx, hdel]
      have hup : (clear_chat_history env s uid).2.index.userProfiles =
          s.index.userProfiles := by
        simp [clear_chat_history, hidx, hdel]
      refine ⟨hctx, hup, ?_, ?_, ?_⟩
      · intro e he
        rw [hms] at he
        exact (List.mem_filter.mp he).1
      · intro e he hne
        rw [hms, List.mem_filter]
        refine ⟨he, ?_⟩
        rcases not_and_or.mp hne with h | h
        · simp [beq_false_of_ne h]
        · simp [beq_false_of_ne h]
      · intro _ _ e he
        rw [hms] at he
        have h2 := (List.mem_filter.mp he).2
        intro hcon
        rcases hcon with ⟨h3, h4⟩
        simp [h3, h4] at h2

/-- A state with one EPISODIC and one FACT vector for the same user plus a
profile and a short-term buffer. -/
def sC7 : MMState :=
  { activeContext := [("u1", [Msg.mk "user" "hi"])]
    index :=
      { memoryStore :=
          [VecEntry.mk "m1" [1]
            (PineconeMeta.mk "chat turn" "episodic" "t0" [("user_id", "u1")] (some "u1")),
           VecEntry.mk "m2" [1]
            (PineconeMeta.mk "likes tea" "fact" "t0" [("user_id", "u1")] (some "u1"))]
        userProfiles := [("u1", some (defaultProfile "u1"))]
        updateProfileCalls := 0
        uuidCounter := 0 }
    cacheClearCalls := 0 }

/-- C7 witness: the buffer is dropped, the profile namespace survives, and
the FACT vector survives a concrete clear. -/
theorem clear_chat_history_spec_witness :
    List.lookup "u1" (clear_chat_history envOk sC7 "u1").2.activeContext = none ∧
    (clear_chat_history envOk sC7 "u1").2.index.userProfiles = sC7.index.userProfiles ∧
    (VecEntry.mk "m2" [1]
        (PineconeMeta.mk "likes tea" "fact" "t0" [("user_id", "u1")] (some "u1"))) ∈
      (clear_chat_history envOk sC7 "u1").2.index.memoryStore :=
  ⟨(clear_chat_history_spec envOk sC7 "u1").1,
   (clear_chat_history_spec envOk sC7 "u1").2.1,
   (clear_chat_history_spec envOk sC7 "u1").2.2.2.1 _ (by decide) (by decide)⟩

theorem mem_insertByScore (a m : QueryMatch) (l : List QueryMatch)
    (h : a ∈ insertByScore m l) : a = m ∨ a ∈ l := by
  induction l with
  | nil =>
    rw [insertByScore] at h
    exact Or.inl (List.mem_singleton.mp h)
  | cons x xs ih =>
    rw [insertByScore] at h
    split at h
    · exact List.mem_cons.mp h
    · rcases List.mem_cons.mp h with h1 | h1
      · exact Or.inr (h1 ▸ List.mem_cons_self x xs)
      · rcases ih h1 with h2 | h2
        · exact Or.inl h2
        · exact Or.inr (List.mem_cons_of_mem x h2)

theorem mem_sortByScore (a : QueryMatch) (l : List QueryMatch)
    (h : a ∈ sortByScore l) : a ∈ l := by
  induction l with
  | nil =>
    rw [sortByScore] at h
    exact h
  | cons x xs ih =>
    rw [sortByScore] at h
    rcases mem_insertByScore a x (sortByScore xs) h with h1 | h1
    · exact h1 ▸ List.mem_cons_self x xs
    · exact List.mem_cons_of_mem x (ih h1)

theorem indexQuery_mem (env : Env) (entries : List VecEntry) (qv : List Rat)
    (topK : Nat) (uid : String) (tfilter : Option String) (m : QueryMatch)
    (h : m ∈ indexQuery env entries qv topK uid tfilter) :
    ∃ e, e ∈ entries ∧ matchesFilter uid tfilter e = true ∧
      m = QueryMatch.mk e.id (env.score qv e.values) e.meta := by
  unfold indexQuery at h
  dsimp only at h
  have h1 := List.take_subset topK _ h
  have h2 := mem_sortByScore _ _ h1
  rcases List.mem_map.mp h2 with ⟨e, he, hm⟩
  exact ⟨e, (List.mem_filter.mp he).1, (List.mem_filter.mp he).2, hm.symm⟩

theorem buildItems_mem (thr : Rat) (ms : List QueryMatch) :
    ∀ L, buildItems thr ms = some L → ∀ item, item ∈ L →
      ∃ m, m ∈ ms ∧ thr ≤ m.score ∧ item.id = m.id := by
  induction ms with
  | nil =>
    intro L hb item hi
    rw [buildItems] at hb
    cases hb
    simp at hi
  | cons m rest ih =>
    intro L hb item hi
    rw [buildItems] at hb
    split at hb
    · rcases ih L hb item hi with ⟨m2, h1, h2, h3⟩
      exact ⟨m2, List.mem_cons_of_mem m h1, h2, h3⟩
    · rename_i hge
      split at hb
      · exact Option.noConfusion hb
      · rcases Option.map_eq_some'.mp hb with ⟨L2, hb2, hL⟩
        rw [← hL] at hi
        rcases List.mem_cons.mp hi with hh | hh
        · exact ⟨m, List.mem_cons_self m rest, not_lt.mp hge, by rw [hh]⟩
        · rcases ih L2 hb2 item hh with ⟨m2, h1, h2, h3⟩
          exact ⟨m2, List.mem_cons_of_mem m h1, h2, h3⟩

/-- C2: every item returned by `retrieve_relevant` originates from a
stored vector whose top-level metadata user_id equals the requested
userId, and whose match score against the embedded query is at least
score_threshold. -/
theorem retrieve_relevant_scoped (env : Env) (s : IndexState) (query user_id : String)
    (limit : Nat) (memory_type : Option MemoryType) (score_threshold : Rat)
    (item : MemoryItem)
    (h : item ∈ retrieve_relevant env s query user_id limit memory_type score_threshold) :
    ∃ qv, env.embed query = some qv ∧
      ∃ e, e ∈ s.memoryStore ∧ e.meta.userId = some user_id ∧
        score_threshold ≤ env.score qv e.values ∧ item.id = e.id := by
  unfold retrieve_relevant at h
  split at h
  · simp at h
  · split at h
    · simp at h
    · rename_i qv heq
      dsimp only at h
      cases hbuild : buildItems score_threshold
          (indexQuery env s.memoryStore qv limit user_id
            (memory_type.map MemoryType.value)) with
      | none =>
        rw [hbuild] at h
        simp at h
      | some L =>
        rw [hbuild] at h
        rw [Option.getD_some] at h
        rcases buildItems_mem score_threshold _ L hbuild item h with ⟨m, hm, hsc, hid⟩
        rcases indexQuery_mem env s.memoryStore qv limit user_id _ m hm with ⟨e, he, hf, hme⟩
        refine ⟨qv, heq, e, he, ?_, ?_, ?_⟩
        · have hf2 : (e.meta.userId == some user_id) = true := by
            unfold matchesFilter at hf
            exact (Bool.and_eq_true _ _).mp hf |>.1
          exact eq_of_beq hf2
        · rw [hme] at hsc
          exact hsc
        · rw [hme] at hid
          exact hid

/-- A state holding a single FACT vector for user u1. -/
def sC2 : IndexState :=
  { memoryStore :=
      [VecEntry.mk "m1" [1]
        (PineconeMeta.mk "likes tea" "fact" "t0" [("user_id", "u1")] (some "u1"))]
    userProfiles := []
    updateProfileCalls := 0
    uuidCounter := 0 }

/-- C2 witness: a concrete retrieval with threshold 1 returns the stored
item, which indeed originates from a u1-scoped vector meeting the
threshold. -/
theorem retrieve_relevant_scoped_witness :
    ∃ qv, envOk.embed "what tea" = some qv ∧
      ∃ e, e ∈ sC2.memoryStore ∧ e.meta.userId = some "u1" ∧
        (1 : Rat) ≤ envOk.score qv e.values ∧
        (MemoryItem.mk "m1" "likes tea" MemoryType.fact "t0" [("user_id", "u1")]).id = e.id :=
  retrieve_relevant_scoped envOk sC2 "what tea" "u1" 5 none 1
    (MemoryItem.mk "m1" "likes tea" MemoryType.fact "t0" [("user_id", "u1")])
    (by decide)

theorem sync_memoryStore (env : Env) (s : IndexState) (a b : UserProfileSchema) :
    (sync_if_changed env s a b).2.memoryStore = s.memoryStore := by
  unfold sync_if_changed
  split
  · unfold update_profile
    split <;> rfl
  · rfl

theorem mem_upsertVec_self (l : List VecEntry) (e : VecEntry) : e ∈ upsertVec l e := by
  unfold upsertVec
  split
  · rename_i h
    rcases List.any_eq_true.mp h with ⟨x, hx, hxe⟩
    refine List.mem_map.mpr ⟨x, hx, ?_⟩
    rw [hxe]
    rfl
  · exact List.mem_append_right _ (List.mem_singleton.mpr rfl)

theorem add_memory_inserts (env : Env) (s : IndexState) (content uid : String)
    (mt : MemoryType) (hidx : env.hasIndex = true) (hc : (content == "") = false)
    (qv : List Rat) (hembed : env.embed content = some qv) :
    ∃ e, e ∈ (add_memory env s content mt [("user_id", uid)]).2.memoryStore ∧
      e.meta.type = mt.value ∧ e.meta.userId = some uid ∧ e.meta.text = content := by
  have hstep : (add_memory env s content mt [("user_id", uid)]).2 =
      { s with
        memoryStore := upsertVec s.memoryStore
          (VecEntry.mk (env.genId s.uuidCounter) qv
            (PineconeMeta.mk content mt.value env.now [("user_id", uid)] (some uid)))
        uuidCounter := s.uuidCounter + 1 } := by
    unfold add_memory
    simp [hidx, hc, hembed, List.lookup_cons]
  rw [hstep]
  exact ⟨_, mem_upsertVec_self _ _, rfl, rfl, rfl⟩

theorem combined_ne_empty (um am : String) :
    (("User: " ++ um ++ "\nAgent: " ++ am) == "") = false := by
  apply beq_false_of_ne
  intro hcon
  have hl := congrArg String.length hcon
  rw [String.length_append, String.length_append, String.length_append] at hl
  rw [show ("User: ").length = 6 from rfl, show ("\nAgent: ").length = 8 from rfl,
    show ("" : String).length = 0 from rfl] at hl
  omega

/-- C9: with non-empty messages, the index available, the summarizer not
raising, and the embedding available for the combined exchange text,
`process_realtime_interaction` archives the exchange as an EPISODIC memory
carrying the user id in its metadata if and only if the combined character
length of the two messages exceeds 50 (otherwise the memory store is left
exactly as it was). -/
theorem episodic_archival_iff (env : Env) (s : MMState)
    (user_id user_msg agent_msg : String)
    (hu : (user_msg == "") = false) (ha : (agent_msg == "") = false)
    (hidx : env.hasIndex = true) (hdelta : env.deltaRaises = false)
    (qv : List Rat)
    (hembed : env.embed ("User: " ++ user_msg ++ "\nAgent: " ++ agent_msg) = some qv) :
    (user_msg.length + agent_msg.length > 50 →
      ∃ e, e ∈ (process_realtime_interaction env s user_id user_msg agent_msg).index.memoryStore ∧
        e.meta.type = "episodic" ∧ e.meta.userId = some user_id ∧
        e.meta.text = "User: " ++ user_msg ++ "\nAgent: " ++ agent_msg) ∧
    (user_msg.length + agent_msg.length ≤ 50 →
      (process_realtime_interaction env s user_id user_msg agent_msg).index.memoryStore =
        s.index.memoryStore) := by
  have hcond : (user_msg == "" || agent_msg == "") = false := by
    rw [hu, ha]
    rfl
  constructor
  · intro h50
    unfold process_realtime_interaction
    split
    · rename_i hcc
      rw [hcond] at hcc
      exact Bool.noConfusion hcc
    · dsimp only
      split
      · rename_i hdc
        rw [hdelta] at hdc
        exact Bool.noConfusion hdc
      · exact add_memory_inserts env _ _ user_id .episodic hidx
          (combined_ne_empty user_msg agent_msg) qv hembed
  · intro h50
    replace h50 : ¬(user_msg.length + agent_msg.length > 50) := by omega
    unfold process_realtime_interaction
    split
    · rfl
    · dsimp only
      split
      · rfl
      · split
        · rfl
        · exact sync_memoryStore env s.index _ _

/-- A long user message for exercising the archival threshold. -/
def longUserMsg : String := "please explain the bond market in detail"

/-- A long agent message for exercising the archival threshold. -/
def longAgentMsg : String := "the bond market works through interest rates"

/-- C9 witness: a concrete long exchange gets archived as an EPISODIC
vector tagged with the user id. -/
theorem episodic_archival_iff_witness :
    ∃ e, e ∈ (process_realtime_interaction envOk emptyMM "u1" longUserMsg longAgentMsg).index.memoryStore ∧
      e.meta.type = "episodic" ∧ e.meta.userId = some "u1" ∧
      e.meta.text = "User: " ++ longUserMsg ++ "\nAgent: " ++ longAgentMsg :=
  (episodic_archival_iff envOk emptyMM "u1" longUserMsg longAgentMsg
    (by decide) (by decide) rfl rfl [1] rfl).1 (by decide)

/-- Environment where everything succeeds except the summarizer call in
`process_realtime_interaction`, which raises. -/
def envDeltaRaises : Env := { envOk with deltaRaises := true }

/-- C8 counterexample: with the summarizer raising in step 2, a long
exchange that would otherwise be archived produces no EPISODIC vector —
the step-2 failure prevents step 3 from running, refuting "a failure in
one step never blocks the other steps" (steps 2 and 3 share one try
block). -/
theorem process_realtime_counterexample :
    longUserMsg.length + longAgentMsg.length > 50 ∧
    (process_realtime_interaction envDeltaRaises emptyMM "u1" longUserMsg longAgentMsg).index.memoryStore = [] ∧
    (process_realtime_interaction envOk emptyMM "u1" longUserMsg longAgentMsg).index.memoryStore ≠ [] := by
  refine ⟨by decide, rfl, by decide⟩

/-- C8 amended: the buffer append (step 1) runs unconditionally and is
never undone by later failures; an exception raised in the profile-delta
or archival phase is caught by a single shared handler and never
propagates to the caller (the call is total and returns the step-1 state);
but steps 2 and 3 share that handler, so a summarizer failure in step 2
also skips step 3's episodic archival. -/
theorem process_realtime_best_effort (env : Env) (s : MMState)
    (user_id user_msg agent_msg : String) :
    ((process_realtime_interaction env s user_id user_msg agent_msg).activeContext =
      if (user_msg == "" || agent_msg == "") then s.activeContext
      else setContext s.activeContext user_id
        (trimBuffer (((List.lookup user_id s.activeContext).getD []) ++
          [Msg.mk "user" user_msg, Msg.mk "agent" agent_msg]))) ∧
    (env.deltaRaises = true → (user_msg == "" || agent_msg == "") = false →
      process_realtime_interaction env s user_id user_msg agent_msg =
        { s with
          activeContext := setContext s.activeContext user_id
            (trimBuffer (((List.lookup user_id s.activeContext).getD []) ++
              [Msg.mk "user" user_msg, Msg.mk "agent" agent_msg])) }) := by
  refine ⟨process_activeContext env s user_id user_msg agent_msg, ?_⟩
  intro hd hcond
  unfold process_realtime_interaction
  split
  · rename_i hcc
    rw [hcond] at hcc
    exact Bool.noConfusion hcc
  · rfl

/-- C8 amended witness: with the summarizer raising, a concrete call
still returns (no exception) and its result is exactly the step-1 state
with the two turns appended. -/
theorem process_realtime_best_effort_witness :
    process_realtime_interaction envDeltaRaises emptyMM "u1" "hi" "hello" =
      { emptyMM with
        activeContext := setContext emptyMM.activeContext "u1"
          (trimBuffer (((List.lookup "u1" emptyMM.activeContext).getD []) ++
            [Msg.mk "user" "hi", Msg.mk "agent" "hello"])) } :=
  (process_realtime_best_effort envDeltaRaises emptyMM "u1" "hi" "hello").2 rfl rfl

end FinAgent
